import Mathlib

/-!
# GoReconX execution core — shallow embedding and verification

This file embeds the execution core of the GoReconX reconnaissance
platform (module scaffold, scan lifecycle manager, event streaming,
result merge, bounded fan-out) in Lean and settles the specification
claims against it.

Conventions of the embedding:
* Go `float64` progress values are modelled as `ℚ`; the claims proved
  here (monotonicity, comparisons against the constants 0.9 and 1.0)
  are preserved by this abstraction.
* Go wall-clock timestamps are abstract `Int` parameters.
* Go `interface{}` payloads are abstracted to `String`.
* A buffered Go channel with no concurrent receiver is a capacity plus
  a list buffer; a non-blocking send appends when the buffer is below
  capacity and is a no-op otherwise.
-/

namespace GoReconX

/-- Static module metadata (`ModuleInfo`, internal/reports/generator.go);
only the fields the verified claims touch are carried. -/
structure ModuleInfo where
  name : String
  category : String
deriving Repr, DecidableEq

/-- Per-module status snapshot (`ModuleStatus`, internal/reports/generator.go
453-460). `startTime` and `elapsedTime` are abstract integer clocks. -/
structure ModuleStatus where
  isRunning : Bool
  progress : ℚ
  startTime : Int
  elapsedTime : Int
  status : String
  message : String
deriving Repr, DecidableEq

/-- `BaseModule` (internal/reports/generator.go 462-467): module info, the
status snapshot, and the one-slot buffered stop channel `stopCh`;
`stopToken = true` iff a token is sitting in the buffer. -/
structure BaseModule where
  info : ModuleInfo
  status : ModuleStatus
  stopToken : Bool
deriving Repr, DecidableEq

/-- `NewBaseModule` (generator.go 470-480): status idle, progress 0, not
running, empty stop channel. -/
def newBaseModule (info : ModuleInfo) : BaseModule :=
  { info := info
    status :=
      { isRunning := false, progress := 0, startTime := 0, elapsedTime := 0
        status := "idle", message := "" }
    stopToken := false }

/-- `BaseModule.Stop` (generator.go 493-501): non-blocking send of one token
into the one-slot stop channel (a no-op when a token is already buffered),
then `IsRunning = false` and status `"stopped"`. -/
def BaseModule.stop (b : BaseModule) : BaseModule :=
  { b with
    stopToken := true
    status := { b.status with isRunning := false, status := "stopped" } }

/-- `BaseModule.IsStopped` (generator.go 518-525): non-blocking receive from
the stop channel — consumes the buffered token and returns `true`, or
returns `false` when the buffer is empty. -/
def BaseModule.isStopped (b : BaseModule) : Bool × BaseModule :=
  if b.stopToken then (true, { b with stopToken := false }) else (false, b)

/-- Iterated `IsStopped` calls, threading the module state. -/
def isStoppedN : Nat → BaseModule → BaseModule
  | 0, b => b
  | n + 1, b => isStoppedN n b.isStopped.2

/-- `BaseModule.SetStatus` (generator.go 504-515). `now` is the abstract
current time used for `StartTime`/`ElapsedTime` bookkeeping. -/
def BaseModule.setStatus (b : BaseModule) (status : String) (progress : ℚ)
    (message : String) (now : Int) : BaseModule :=
  let st0 := { b.status with status := status, progress := progress, message := message }
  let st1 :=
    if status = "running" ∧ ¬ b.status.isRunning then
      { st0 with isRunning := true, startTime := now }
    else if status = "completed" ∨ status = "error" ∨ status = "stopped" then
      { st0 with isRunning := false, elapsedTime := now - b.status.startTime }
    else st0
  { b with status := st1 }

/-- An event record (`ModuleResult`, generator.go 443-450); the payload and
metadata are abstracted to one `String`, the timestamp is dropped. -/
structure ModuleResult where
  type : String
  data : String
  sessionID : String
  module : String
deriving Repr, DecidableEq

/-- A buffered event channel with no active receiver: capacity plus the
events currently buffered, oldest first. -/
structure EventChan where
  capacity : Nat
  buffer : List ModuleResult
deriving Repr, DecidableEq

/-- `BaseModule.SendResult` (generator.go 528-543): builds the result record
and performs a non-blocking `select` send — when the buffer is full the
event is silently dropped, whatever its type (advisory or terminal). -/
def sendResult (b : BaseModule) (ch : EventChan) (resultType : String)
    (data : String) (sessionID : String) : EventChan :=
  let result : ModuleResult :=
    { type := resultType, data := data, sessionID := sessionID, module := b.info.name }
  if ch.buffer.length < ch.capacity then
    { ch with buffer := ch.buffer ++ [result] }
  else
    ch

/-- Sends a list of (type, payload) events in order through `sendResult`. -/
def deliverAll (b : BaseModule) (ch : EventChan) (sessionID : String)
    (events : List (String × String)) : EventChan :=
  events.foldl (fun c e => sendResult b c e.1 e.2 sessionID) ch

/-- Number of buffered events of a given type. -/
def countType (ch : EventChan) (t : String) : Nat :=
  ch.buffer.countP (fun r => r.type == t)

/-- The sequence of `SendResult` calls `PortScanModule.Execute` makes on its
normal-return path (port_scan.go 155, 210-213, 234-237): one `progress`
announcement, one `data` event per open port, then exactly one terminal
`complete` event, after which `Execute` returns `nil`. -/
def portScanEvents (openPorts : List Nat) : List (String × String) :=
  ("progress", "scanning") ::
    openPorts.map (fun p => ("data", "open_port " ++ toString p)) ++
      [("complete", "result")]

/-- The per-port deferred progress update in `PortScanModule.Execute`
(port_scan.go 176-184): after `scanned` of `total` ports have finished, the
module sets status `"running"` with progress `scanned/total`. -/
def portScanPerPortUpdate (b : BaseModule) (scanned total : Nat) (now : Int) :
    BaseModule :=
  b.setStatus "running" ((scanned : ℚ) / (total : ℚ))
    ("Scanned " ++ toString scanned ++ " ports") now

/-! ## Scan lifecycle manager (internal/core, second document of
internal/modules/domain_enum.go) -/

/-- `isValidDomain` (domain_enum.go 489-496): non-empty, at most 253
characters, contains a dot, neither starts nor ends with a dot. The Go
byte-wise `len`/`Contains`/`HasPrefix`/`HasSuffix` on the one-byte
needle "." are expressed on the character list of the string. -/
def isValidDomain (domain : String) : Bool :=
  if domain = "" || domain.data.length > 253 then false
  else domain.data.contains '.'
    && !(domain.data.head? == some '.')
    && !(domain.data.getLast? == some '.')

/-- The `core.Module` interface (application.go 16-20): a name and
`Execute(target)` returning a payload or an error. The interface exposes
no validate operation. -/
structure CoreModule where
  name : String
  execute : String → Except String String

/-- A `modules.Module`-style probe as seen by the adapter: its `Validate`
check (`some msg` meaning a validation error) and its execution. -/
structure ProbeModule where
  name : String
  validate : String → Option String
  execute : String → Except String String

/-- `ModuleAdapter` (application.go 22-65): wraps a probe into a
`CoreModule`, exposing only `Execute`; the probe's `Validate` is never
consulted on this path. -/
def moduleAdapter (m : ProbeModule) : CoreModule :=
  { name := m.name, execute := m.execute }

/-- `ScanExecution` (domain_enum.go core section 576-590). The options
mapping and the `context.Context` value are abstracted away;
`cancelRequested` models the state of the scan's cancellation token. -/
structure ScanExecution where
  id : String
  sessionID : String
  moduleName : String
  target : String
  status : String
  progress : ℚ
  startedAt : Int
  completedAt : Int
  results : Option String
  error : String
  cancelRequested : Bool
deriving Repr, DecidableEq

/-- One write against the persistence collaborator: `storeScanInDB`
(INSERT, 744-755) or `updateScanInDB` (UPDATE of status, progress,
completed_at, error_message, 758-768). -/
inductive DBWrite where
  | store (scan : ScanExecution)
  | update (id status : String) (progress : ℚ) (completedAt : Int) (error : String)
deriving Repr, DecidableEq

/-- `ScanManager` state (569-573): the scans map plus the log of
persistence writes issued so far. -/
structure ScanManagerState where
  scans : List (String × ScanExecution)
  db : List DBWrite
deriving Repr, DecidableEq

/-- First-match lookup in the registry map (`Application.GetModule`). -/
def lookupModule : List (String × CoreModule) → String → Option CoreModule
  | [], _ => none
  | (k, v) :: rest, key => if k = key then some v else lookupModule rest key

/-- First-match lookup in the scans map. -/
def lookupScan : List (String × ScanExecution) → String → Option ScanExecution
  | [], _ => none
  | (k, v) :: rest, key => if k = key then some v else lookupScan rest key

/-- Replaces the value bound to `id`, leaving the list unchanged when the
key is absent (Go map assignment to an existing key). -/
def updateScan : List (String × ScanExecution) → String → ScanExecution →
    List (String × ScanExecution)
  | [], _, _ => []
  | (k, v) :: rest, id, s =>
    if k = id then (k, s) :: rest else (k, v) :: updateScan rest id s

/-- The `updateScanInDB` row written for a scan record. -/
def dbUpdateOf (s : ScanExecution) : DBWrite :=
  .update s.id s.status s.progress s.completedAt s.error

/-- `ScanManager.StartScan` (601-637): fails only when the module name is
not registered; otherwise creates the scan with status `pending` and
progress 0, stores it in the map and the database, and spawns the
execution task. No validation of the target happens here. `scanID` stands
for the generated random id and `now` for the start timestamp. -/
def startScan (registry : List (String × CoreModule)) (st : ScanManagerState)
    (scanID sessionID moduleName target : String) (now : Int) :
    Except String (ScanManagerState × ScanExecution) :=
  match lookupModule registry moduleName with
  | none => .error ("module " ++ moduleName ++ " not found")
  | some _ =>
    let scan : ScanExecution :=
      { id := scanID, sessionID := sessionID, moduleName := moduleName
        target := target, status := "pending", progress := 0, startedAt := now
        completedAt := 0, results := none, error := "", cancelRequested := false }
    .ok ({ scans := st.scans ++ [(scanID, scan)], db := st.db ++ [.store scan] }, scan)

/-- The first step of the execution task (`executeScan` 682-687): status
`running`, progress 0.1, persisted. -/
def execStart (s : ScanExecution) : ScanExecution :=
  { s with status := "running", progress := 1/10 }

/-- Manager-level view of `execStart`, including the persistence write. -/
def execStartM (st : ScanManagerState) (scanID : String) : ScanManagerState :=
  match lookupScan st.scans scanID with
  | none => st
  | some scan =>
    let s' := execStart scan
    { scans := updateScan st.scans scanID s', db := st.db ++ [dbUpdateOf s'] }

/-- One tick of the progress goroutine (`executeScan` 694-706): while the
status is `running` and progress is below 0.9, add 0.1. -/
def progressTick (s : ScanExecution) : ScanExecution :=
  if s.status = "running" ∧ s.progress < 9/10 then
    { s with progress := s.progress + 1/10 }
  else s

/-- `ScanManager.CancelScan` (662-679): unknown id is an error; a running
scan has its cancellation token triggered, is marked `cancelled` and the
transition is persisted; any other state is left untouched with no error. -/
def cancelScan (st : ScanManagerState) (scanID : String) :
    Except String ScanManagerState :=
  match lookupScan st.scans scanID with
  | none => .error ("scan " ++ scanID ++ " not found")
  | some scan =>
    if scan.status = "running" then
      let scan' := { scan with cancelRequested := true, status := "cancelled" }
      .ok { scans := updateScan st.scans scanID scan'
            db := st.db ++ [dbUpdateOf scan'] }
    else
      .ok st

/-- The tail of the execution task once `module.Execute` has returned
(`executeScan` 709-730): cancel the ticker context, stamp the completion
time, set the status from the module's return value — overwriting whatever
status the record held at that moment — then set progress 1.0. -/
def finishScan (s : ScanExecution) (res : Except String String) (now : Int) :
    ScanExecution :=
  let s1 := { s with cancelRequested := true, completedAt := now }
  let s2 :=
    match res with
    | .error msg => { s1 with status := "failed", error := msg }
    | .ok payload => { s1 with status := "completed", results := some payload }
  { s2 with progress := 1 }

/-- Manager-level view of `finishScan`, including the persistence write. -/
def finishScanM (st : ScanManagerState) (scanID : String)
    (res : Except String String) (now : Int) : ScanManagerState :=
  match lookupScan st.scans scanID with
  | none => st
  | some scan =>
    let s' := finishScan scan res now
    { scans := updateScan st.scans scanID s', db := st.db ++ [dbUpdateOf s'] }

/-! ## Result merge engine (internal/modules/email_enum.go) -/

/-- `EmailInfo` (email_enum.go 31-39). -/
structure EmailInfo where
  email : String
  name : String
  position : String
  department : String
  sources : List String
  confidence : Int
  lastSeen : String
deriving Repr, DecidableEq

/-- The merge of an incoming candidate record into the existing record with
the same identity (`EmailEnumModule.Execute`, email_enum.go 179-186,
203-210, 243-250, 262-269): sources are concatenated, confidence is maxed,
and every other field keeps the existing record's value. -/
def mergeEmail (existing incoming : EmailInfo) : EmailInfo :=
  { existing with
    sources := existing.sources ++ incoming.sources
    confidence := max existing.confidence incoming.confidence }

/-- Insert-or-merge of one candidate record into `emailMap`, keyed by the
email address (the map is modelled as an association list). -/
def insertEmail : List (String × EmailInfo) → EmailInfo → List (String × EmailInfo)
  | [], r => [(r.email, r)]
  | (k, v) :: rest, r =>
    if k = r.email then (k, mergeEmail v r) :: rest
    else (k, v) :: insertEmail rest r

/-- First-match lookup in the email map. -/
def findEmail : List (String × EmailInfo) → String → Option EmailInfo
  | [], _ => none
  | (k, v) :: rest, key => if k = key then some v else findEmail rest key

/-- Folds a stream of candidate records into the map in completion order
(the per-technique loops of `EmailEnumModule.Execute`). -/
def mergeAll (records : List EmailInfo) : List (String × EmailInfo) :=
  records.foldl insertEmail []

/-- Modelled from the spec: the merge rule the specification states for
fields other than sources/confidence — "all other fields keep the first
non-empty value already present". Used only to compare the specified
field-merge against the implemented one. -/
def firstNonEmpty (existing incoming : String) : String :=
  if existing ≠ "" then existing else incoming

/-- The effect of one candidate record on the map entry of a fixed key
`k`: the key-projection of `insertEmail`. -/
def keyStep (k : String) (acc : Option EmailInfo) (r : EmailInfo) :
    Option EmailInfo :=
  if r.email = k then
    match acc with
    | none => some r
    | some ex => some (mergeEmail ex r)
  else acc

/-- The effect of one candidate record on the merged confidence of a fixed
key `k`. -/
def confStep (k : String) (acc : Option Int) (r : EmailInfo) : Option Int :=
  if r.email = k then
    match acc with
    | none => some r.confidence
    | some c => some (max c r.confidence)
  else acc

/-! ## Bounded fan-out (port_scan.go 166-222, WebEnumModule 232-269) -/

/-- A snapshot of the semaphore-guarded fan-out: `pending` candidates not
yet spawned by the launch loop, `waiting` goroutines blocked on
`semaphore <- true`, `running` checks holding a semaphore slot (in
flight), and `finished` checks done. -/
structure FanOutState where
  pending : Nat
  waiting : Nat
  running : Nat
  finished : Nat
deriving Repr, DecidableEq

/-- Interleaved execution steps of the fan-out: the launch loop spawns one
goroutine per candidate; a goroutine starts its check only once its send
on the `limit`-buffered semaphore channel succeeds, i.e. when fewer than
`limit` tokens are buffered; the deferred receive releases the slot when
the check finishes. -/
inductive FanOutStep (limit : Nat) : FanOutState → FanOutState → Prop
  | spawn (p w r f : Nat) :
      FanOutStep limit ⟨p + 1, w, r, f⟩ ⟨p, w + 1, r, f⟩
  | acquire (p w r f : Nat) (h : r < limit) :
      FanOutStep limit ⟨p, w + 1, r, f⟩ ⟨p, w, r + 1, f⟩
  | release (p w r f : Nat) :
      FanOutStep limit ⟨p, w, r + 1, f⟩ ⟨p, w, r, f + 1⟩

/-- States reachable from launching the fan-out over `n` candidates. -/
inductive FanOutReachable (limit n : Nat) : FanOutState → Prop
  | init : FanOutReachable limit n ⟨n, 0, 0, 0⟩
  | step (s s' : FanOutState) : FanOutReachable limit n s →
      FanOutStep limit s s' → FanOutReachable limit n s'

/-! ## Observable progress sequences (claim C7) -/

/-- The events that mutate one `ScanExecution` record while its execution
task runs: a progress-goroutine tick, the `CancelScan` mutation, and the
finishing tail of `executeScan`. -/
inductive ScanEvt where
  | tick
  | cancel
  | finish (res : Except String String) (now : Int)

/-- Applies one event to the scan record, exactly as the corresponding Go
code path does. -/
def applyScanEvt (s : ScanExecution) : ScanEvt → ScanExecution
  | .tick => progressTick s
  | .cancel =>
    if s.status = "running" then
      { s with cancelRequested := true, status := "cancelled" }
    else s
  | .finish res now => finishScan s res now

/-- The record states an observer polling `GetScan` can see over the course
of an execution, given the interleaving `evts`. -/
def scanStates (s : ScanExecution) : List ScanEvt → List ScanExecution
  | [] => [s]
  | e :: evts => s :: scanStates (applyScanEvt s e) evts

/-- Invariant carried by a scan record during execution: progress never
exceeds 1 and equals 1 only with a terminal `completed`/`failed` status. -/
def scanInv (s : ScanExecution) : Prop :=
  s.progress ≤ 1 ∧ (s.progress = 1 → s.status = "completed" ∨ s.status = "failed")

/-- The `i`-th `SetStatus` call of a normal `WebEnumModule.Execute` run over
`n` generated paths (part_005 149-299): the four fixed phase updates at
progress 0, 0.1, 0.2, 0.3, then the per-path updates at
`0.3 + 0.6·k/n`, then 0.9, and finally `completed` at 1.0. -/
def webEnumObs (n : Nat) (i : Nat) : String × ℚ :=
  if i = 0 then ("running", 0)
  else if i = 1 then ("running", 1/10)
  else if i = 2 then ("running", 2/10)
  else if i = 3 then ("running", 3/10)
  else if i ≤ 3 + n then ("running", 3/10 + 6/10 * ((i : ℚ) - 3) / (n : ℚ))
  else if i = 4 + n then ("running", 9/10)
  else ("completed", 1)

/-- The full status/progress trace of a normal `WebEnumModule.Execute` run
over `n` paths. -/
def webEnumProgressTrace (n : Nat) : List (String × ℚ) :=
  (List.range (6 + n)).map (webEnumObs n)

/-! ## Helper lemmas -/

instance {ε α : Type} [DecidableEq ε] [DecidableEq α] : DecidableEq (Except ε α) :=
  fun x y =>
    match x, y with
    | .ok a, .ok b =>
      match decEq a b with
      | isTrue h => isTrue (h ▸ rfl)
      | isFalse h => isFalse (fun hc => h (Except.ok.inj hc))
    | .error a, .error b =>
      match decEq a b with
      | isTrue h => isTrue (h ▸ rfl)
      | isFalse h => isFalse (fun hc => h (Except.error.inj hc))
    | .ok _, .error _ => isFalse (fun hc => Except.noConfusion hc)
    | .error _, .ok _ => isFalse (fun hc => Except.noConfusion hc)

theorem lookupScan_updateScan_self (l : List (String × ScanExecution)) (id : String)
    (s' : ScanExecution) (h : (lookupScan l id).isSome) :
    lookupScan (updateScan l id s') id = some s' := by
  induction l with
  | nil => simp [lookupScan] at h
  | cons kv rest ih =>
    obtain ⟨k, v⟩ := kv
    by_cases hk : k = id
    · subst hk
      simp [updateScan, lookupScan]
    · simp only [updateScan, lookupScan, if_neg hk] at h ⊢
      exact ih h

theorem lookupScan_append_right (l : List (String × ScanExecution)) (id : String)
    (s : ScanExecution) (h : lookupScan l id = none) :
    lookupScan (l ++ [(id, s)]) id = some s := by
  induction l with
  | nil => simp [lookupScan]
  | cons kv rest ih =>
    obtain ⟨k, v⟩ := kv
    by_cases hk : k = id
    · simp [lookupScan, hk] at h
    · simp only [List.cons_append, lookupScan, if_neg hk] at h ⊢
      exact ih h

theorem finishScan_status (s : ScanExecution) (res : Except String String)
    (now : Int) : (finishScan s res now).status
      = match res with | .ok _ => "completed" | .error _ => "failed" := by
  cases res <;> rfl

theorem stop_stopToken (b : BaseModule) : (b.stop).stopToken = true := rfl

theorem isStopped_token (b : BaseModule) (h : b.stopToken = true) :
    b.isStopped = (true, { b with stopToken := false }) := by
  simp [BaseModule.isStopped, h]

theorem isStopped_empty (b : BaseModule) (h : b.stopToken = false) :
    b.isStopped = (false, b) := by
  simp [BaseModule.isStopped, h]

theorem isStoppedN_no_token (n : Nat) (b : BaseModule) (h : b.stopToken = false) :
    isStoppedN n b = b := by
  induction n with
  | zero => rfl
  | succ n ih =>
    show isStoppedN n b.isStopped.2 = b
    rw [show b.isStopped.2 = b by simp [BaseModule.isStopped, h]]
    exact ih

theorem setStatus_status (b : BaseModule) (st : String) (p : ℚ) (msg : String)
    (now : Int) : (b.setStatus st p msg now).status.status = st := by
  simp only [BaseModule.setStatus]
  split
  · rfl
  · split <;> rfl

theorem setStatus_progress (b : BaseModule) (st : String) (p : ℚ) (msg : String)
    (now : Int) : (b.setStatus st p msg now).status.progress = p := by
  simp only [BaseModule.setStatus]
  split
  · rfl
  · split <;> rfl

/-! ## Claim C10 — the stop signal is consumed by the first check -/

/-- C10: a single `Stop()` buffers one token in the one-slot stop channel;
the first subsequent `IsStopped()` consumes it and returns true, every
further `IsStopped()` returns false (leaving the module unchanged) until
`Stop()` is called again, and a second `Stop()` before any check still
yields only one positive observation. -/
theorem c10_stop_signal_not_sticky (b : BaseModule) (n : Nat) :
    (b.stop.isStopped).1 = true ∧
    ((isStoppedN n (b.stop.isStopped).2).isStopped).1 = false ∧
    ((b.stop.isStopped).2.stop.isStopped).1 = true ∧
    (b.stop.stop.isStopped).1 = true ∧
    ((b.stop.stop.isStopped).2.isStopped).1 = false := by
  rw [isStopped_token b.stop (stop_stopToken b)]
  have h2 : (BaseModule.mk b.stop.info b.stop.status false).stopToken = false := rfl
  rw [show ({ b.stop with stopToken := false } : BaseModule)
      = BaseModule.mk b.stop.info b.stop.status false from rfl]
  rw [isStoppedN_no_token n _ h2, isStopped_empty _ h2]
  rw [isStopped_token b.stop.stop (stop_stopToken b.stop)]
  have h3 : (BaseModule.mk b.stop.stop.info b.stop.stop.status false).stopToken = false := rfl
  rw [show ({ b.stop.stop with stopToken := false } : BaseModule)
      = BaseModule.mk b.stop.stop.info b.stop.stop.status false from rfl]
  rw [isStopped_empty _ h3]
  refine ⟨rfl, rfl, ?_, rfl, rfl⟩
  exact congrArg Prod.fst (isStopped_token _ rfl)

/-! ## Claim C6 — module status invariant -/

/-- C6 counterexample: after `Stop()` the status string is `"stopped"`, not
`"idle"` as the claim requires; moreover the last per-port update of
`PortScanModule.Execute` reports progress 1.0 while the status is still
`"running"`. -/
theorem c6_counterexample :
    ((newBaseModule ⟨"port_scan", "active_recon"⟩).stop).status.status = "stopped" ∧
    ((newBaseModule ⟨"port_scan", "active_recon"⟩).stop).status.status ≠ "idle" ∧
    (portScanPerPortUpdate (newBaseModule ⟨"port_scan", "active_recon"⟩) 1 1 0).status.status
      = "running" ∧
    (portScanPerPortUpdate (newBaseModule ⟨"port_scan", "active_recon"⟩) 1 1 0).status.progress
      = 1 := by
  refine ⟨rfl, by decide, setStatus_status .., ?_⟩
  rw [portScanPerPortUpdate, setStatus_progress]
  norm_num

/-- C6 (amended): status is `"idle"` (progress 0, not running) before the
first run, and `"stopped"` — not `"idle"` — with is-running false after
`stop()`; while running, the per-port progress updates of
`PortScanModule.Execute` stay strictly below 1.0 only up to the
second-to-last candidate: the final in-phase update reports progress
exactly 1.0 while the status is still `"running"`. -/
theorem c6_module_status_amended :
    (∀ info : ModuleInfo, (newBaseModule info).status.status = "idle" ∧
      (newBaseModule info).status.progress = 0 ∧
      (newBaseModule info).status.isRunning = false) ∧
    (∀ b : BaseModule, (b.stop).status.status = "stopped" ∧
      (b.stop).status.isRunning = false) ∧
    (∀ (b : BaseModule) (scanned total : Nat) (now : Int), scanned < total →
      (portScanPerPortUpdate b scanned total now).status.status = "running" ∧
      (portScanPerPortUpdate b scanned total now).status.progress < 1) ∧
    (∀ (b : BaseModule) (total : Nat) (now : Int), 0 < total →
      (portScanPerPortUpdate b total total now).status.status = "running" ∧
      (portScanPerPortUpdate b total total now).status.progress = 1) := by
  refine ⟨fun info => ⟨rfl, rfl, rfl⟩, fun b => ⟨rfl, rfl⟩, ?_, ?_⟩
  · intro b scanned total now h
    have h0 : 0 < total := lt_of_le_of_lt (Nat.zero_le scanned) h
    have htot : (0 : ℚ) < total := by exact_mod_cast h0
    refine ⟨setStatus_status .., ?_⟩
    rw [portScanPerPortUpdate, setStatus_progress]
    rw [div_lt_one htot]
    exact_mod_cast h
  · intro b total now h
    have htot : ((total : ℚ)) ≠ 0 := by positivity
    refine ⟨setStatus_status .., ?_⟩
    rw [portScanPerPortUpdate, setStatus_progress]
    exact div_self htot

/-- C6 amended witness: concrete instantiation with 2 of 3 and 3 of 3 ports
scanned. -/
theorem c6_module_status_amended_witness :
    (portScanPerPortUpdate (newBaseModule ⟨"port_scan", "active_recon"⟩) 2 3 0).status.progress < 1 ∧
    (portScanPerPortUpdate (newBaseModule ⟨"port_scan", "active_recon"⟩) 3 3 0).status.progress = 1 :=
  ⟨(c6_module_status_amended.2.2.1 (newBaseModule ⟨"port_scan", "active_recon"⟩) 2 3 0
      (by decide)).2,
   (c6_module_status_amended.2.2.2 (newBaseModule ⟨"port_scan", "active_recon"⟩) 3 0
      (by decide)).2⟩

/-! ## Claim C1 — delivery of the terminal event -/

theorem deliverAll_buffer (b : BaseModule) (sid : String) :
    ∀ (evts : List (String × String)) (ch : EventChan),
      ch.buffer.length + evts.length ≤ ch.capacity →
      (deliverAll b ch sid evts).buffer
        = ch.buffer ++ evts.map (fun e => ModuleResult.mk e.1 e.2 sid b.info.name) := by
  intro evts
  induction evts with
  | nil => intro ch h; simp [deliverAll]
  | cons e rest ih =>
    intro ch h
    have hlt : ch.buffer.length < ch.capacity := by
      simp only [List.length_cons] at h; omega
    have hsend : sendResult b ch e.1 e.2 sid
        = { ch with buffer := ch.buffer ++ [⟨e.1, e.2, sid, b.info.name⟩] } := by
      simp [sendResult, hlt]
    have hstep : deliverAll b ch sid (e :: rest)
        = deliverAll b (sendResult b ch e.1 e.2 sid) sid rest := by
      simp [deliverAll]
    rw [hstep, hsend, ih _ (by simp only [List.length_cons, List.length_append,
      List.length_nil] at h ⊢; omega)]
    simp

/-- C1 counterexample: the port-scan module's normal-path event sequence
(ending in `Execute` returning nil) delivered into a full one-slot channel
yields zero observed `complete` events, although exactly one was sent. -/
theorem c1_counterexample :
    countType
      (deliverAll (newBaseModule ⟨"port_scan", "active_recon"⟩)
        ⟨1, [⟨"progress", "x", "s1", "port_scan"⟩]⟩ "s1" (portScanEvents [22]))
      "complete" = 0 ∧
    (portScanEvents [22]).countP (fun e => e.1 == "complete") = 1 := by
  decide

/-- C1 (amended): terminal `complete`/`error` events travel through the same
non-blocking drop path as advisory events — `SendResult` drops any event
whenever the buffer is full and appends it whenever there is room — and the
normal return path of `PortScanModule.Execute` attempts exactly one
`complete` event, so the consumer observes exactly one `complete` precisely
when the channel has room for the module's events, and may observe none
under backpressure even though `Execute` returned normally. -/
theorem c1_terminal_event_drop_policy :
    (∀ (b : BaseModule) (ch : EventChan) (t d sid : String),
        ch.capacity ≤ ch.buffer.length → sendResult b ch t d sid = ch) ∧
    (∀ (b : BaseModule) (ch : EventChan) (t d sid : String),
        ch.buffer.length < ch.capacity →
        (sendResult b ch t d sid).buffer = ch.buffer ++ [⟨t, d, sid, b.info.name⟩]) ∧
    (∀ (b : BaseModule) (sid : String) (openPorts : List Nat) (ch : EventChan),
        ch.buffer = [] → 2 + openPorts.length ≤ ch.capacity →
        countType (deliverAll b ch sid (portScanEvents openPorts)) "complete" = 1) := by
  refine ⟨?_, ?_, ?_⟩
  · intro b ch t d sid h
    simp [sendResult, Nat.not_lt.mpr h]
  · intro b ch t d sid h
    simp [sendResult, h]
  · intro b sid openPorts ch hbuf hcap
    have hlen : ch.buffer.length + (portScanEvents openPorts).length ≤ ch.capacity := by
      simp only [hbuf, List.length_nil, Nat.zero_add, portScanEvents, List.length_cons,
        List.length_append, List.length_map, List.length_singleton]
      omega
    rw [countType, deliverAll_buffer b sid _ ch hlen, hbuf]
    have hdata : List.countP (fun r => r.type == "complete")
        ((openPorts.map (fun p => ("data", "open_port " ++ toString p))).map
          (fun e => ModuleResult.mk e.1 e.2 sid b.info.name)) = 0 := by
      rw [List.countP_eq_zero]
      intro a ha
      simp only [List.mem_map] at ha
      obtain ⟨e, ⟨p, _, rfl⟩, rfl⟩ := ha
      simp
    simp [portScanEvents, List.countP_append, List.countP_cons, hdata]

/-- C1 amended witness: a full one-slot channel drops a `complete` event; an
empty channel of capacity 4 observes exactly one `complete` from a run with
two open ports. -/
theorem c1_terminal_event_drop_policy_witness :
    sendResult (newBaseModule ⟨"port_scan", "active_recon"⟩)
        ⟨1, [⟨"progress", "x", "s1", "port_scan"⟩]⟩ "complete" "r" "s1"
      = ⟨1, [⟨"progress", "x", "s1", "port_scan"⟩]⟩ ∧
    countType
      (deliverAll (newBaseModule ⟨"port_scan", "active_recon"⟩) ⟨4, []⟩ "s1"
        (portScanEvents [22, 80])) "complete" = 1 :=
  ⟨c1_terminal_event_drop_policy.1 (newBaseModule ⟨"port_scan", "active_recon"⟩)
      ⟨1, [⟨"progress", "x", "s1", "port_scan"⟩]⟩ "complete" "r" "s1" (by decide),
   c1_terminal_event_drop_policy.2.2 (newBaseModule ⟨"port_scan", "active_recon"⟩)
      "s1" [22, 80] ⟨4, []⟩ rfl (by decide)⟩

/-! ## Claim C8 — CancelScan semantics -/

/-- C8: for every scan present in the manager, `CancelScan` is a no-op
returning no error when the scan is not `running`; when it is running, the
call triggers the scan's cancellation token, marks it `cancelled` and
appends the persistence update. -/
theorem c8_cancelScan_semantics (st : ScanManagerState) (id : String)
    (scan : ScanExecution) (h : lookupScan st.scans id = some scan) :
    (scan.status ≠ "running" → cancelScan st id = .ok st) ∧
    (scan.status = "running" →
      cancelScan st id = .ok
        { scans := updateScan st.scans id
            { scan with cancelRequested := true, status := "cancelled" }
          db := st.db ++
            [dbUpdateOf { scan with cancelRequested := true, status := "cancelled" }] } ∧
      lookupScan
          (updateScan st.scans id { scan with cancelRequested := true, status := "cancelled" })
          id
        = some { scan with cancelRequested := true, status := "cancelled" }) := by
  constructor
  · intro hn
    simp [cancelScan, h, hn]
  · intro hr
    exact ⟨by simp [cancelScan, h, hr],
      lookupScan_updateScan_self _ _ _ (by simp [h])⟩

/-- C8 witness: a pending scan is left untouched with no error; a running
scan is marked cancelled and the transition persisted. -/
theorem c8_cancelScan_semantics_witness :
    cancelScan
        ⟨[("scan_0", ⟨"scan_0", "sess_1", "port_scan", "example.com", "pending",
            0, 0, 0, none, "", false⟩)], []⟩ "scan_0"
      = .ok ⟨[("scan_0", ⟨"scan_0", "sess_1", "port_scan", "example.com", "pending",
            0, 0, 0, none, "", false⟩)], []⟩ ∧
    cancelScan
        ⟨[("scan_1", ⟨"scan_1", "sess_1", "port_scan", "example.com", "running",
            1/10, 0, 0, none, "", false⟩)], []⟩ "scan_1"
      = .ok
        { scans := updateScan
            [("scan_1", ⟨"scan_1", "sess_1", "port_scan", "example.com", "running",
              1/10, 0, 0, none, "", false⟩)] "scan_1"
            { (⟨"scan_1", "sess_1", "port_scan", "example.com", "running",
                1/10, 0, 0, none, "", false⟩ : ScanExecution) with
              cancelRequested := true, status := "cancelled" }
          db := [] ++
            [dbUpdateOf { (⟨"scan_1", "sess_1", "port_scan", "example.com", "running",
                1/10, 0, 0, none, "", false⟩ : ScanExecution) with
              cancelRequested := true, status := "cancelled" }] } :=
  ⟨(c8_cancelScan_semantics
      ⟨[("scan_0", ⟨"scan_0", "sess_1", "port_scan", "example.com", "pending",
          0, 0, 0, none, "", false⟩)], []⟩ "scan_0"
      ⟨"scan_0", "sess_1", "port_scan", "example.com", "pending",
          0, 0, 0, none, "", false⟩ rfl).1 (by decide),
   ((c8_cancelScan_semantics
      ⟨[("scan_1", ⟨"scan_1", "sess_1", "port_scan", "example.com", "running",
          1/10, 0, 0, none, "", false⟩)], []⟩ "scan_1"
      ⟨"scan_1", "sess_1", "port_scan", "example.com", "running",
          1/10, 0, 0, none, "", false⟩ rfl).2 rfl).1⟩

/-! ## Claim C2 — cancellation versus the execution task -/

/-- C2 counterexample: a running scan is cancelled via `CancelScan` (its
recorded status becomes `cancelled`), yet when the module's `Execute`
returns normally the execution task overwrites the record to `completed`
— so the terminal recorded status of this cancelled scan is not
`cancelled`. -/
theorem c2_counterexample :
    ((cancelScan
        ⟨[("scan_1", ⟨"scan_1", "sess_1", "port_scan", "10.0.0.5", "running",
            1/10, 0, 0, none, "", false⟩)], []⟩ "scan_1").toOption.map
      (fun st' =>
        ((lookupScan st'.scans "scan_1").map ScanExecution.status,
         (lookupScan (finishScanM st' "scan_1" (.ok "result") 9).scans "scan_1").map
           ScanExecution.status)))
      = some (some "cancelled", some "completed") := by
  decide

/-- C2 (amended): `CancelScan` on a running scan does mark it `cancelled`
and trigger its cancellation token, but the execution task never invokes
the module's `stop()` and waits for the module's natural return, after
which it unconditionally overwrites the recorded status with `completed`
(normal return) or `failed` (error return) — the `cancelled` status does
not survive as the terminal status. -/
theorem c2_cancelled_status_overwritten (st : ScanManagerState) (id : String)
    (scan : ScanExecution) (res : Except String String) (now : Int)
    (h : lookupScan st.scans id = some scan) (hr : scan.status = "running") :
    ∃ st', cancelScan st id = .ok st' ∧
      (lookupScan st'.scans id).map ScanExecution.status = some "cancelled" ∧
      (lookupScan (finishScanM st' id res now).scans id).map ScanExecution.status
        = some (match res with | .ok _ => "completed" | .error _ => "failed") ∧
      (lookupScan (finishScanM st' id res now).scans id).map ScanExecution.status
        ≠ some "cancelled" := by
  obtain ⟨heq, hlook⟩ := (c8_cancelScan_semantics st id scan h).2 hr
  refine ⟨_, heq, by rw [hlook]; rfl, ?_, ?_⟩
  · rw [show finishScanM
        { scans := updateScan st.scans id
            { scan with cancelRequested := true, status := "cancelled" }
          db := st.db ++
            [dbUpdateOf { scan with cancelRequested := true, status := "cancelled" }] }
        id res now
      = { scans := updateScan
            (updateScan st.scans id { scan with cancelRequested := true, status := "cancelled" })
            id
            (finishScan { scan with cancelRequested := true, status := "cancelled" } res now)
          db := (st.db ++
            [dbUpdateOf { scan with cancelRequested := true, status := "cancelled" }]) ++
            [dbUpdateOf
              (finishScan { scan with cancelRequested := true, status := "cancelled" } res now)] }
      by simp [finishScanM, hlook]]
    rw [lookupScan_updateScan_self _ _ _ (by simp [hlook])]
    simp only [Option.map_some', finishScan_status]
  · rw [show finishScanM
        { scans := updateScan st.scans id
            { scan with cancelRequested := true, status := "cancelled" }
          db := st.db ++
            [dbUpdateOf { scan with cancelRequested := true, status := "cancelled" }] }
        id res now
      = { scans := updateScan
            (updateScan st.scans id { scan with cancelRequested := true, status := "cancelled" })
            id
            (finishScan { scan with cancelRequested := true, status := "cancelled" } res now)
          db := (st.db ++
            [dbUpdateOf { scan with cancelRequested := true, status := "cancelled" }]) ++
            [dbUpdateOf
              (finishScan { scan with cancelRequested := true, status := "cancelled" } res now)] }
      by simp [finishScanM, hlook]]
    rw [lookupScan_updateScan_self _ _ _ (by simp [hlook])]
    simp only [Option.map_some', finishScan_status]
    cases res <;> simp

/-- C2 amended witness: the concrete cancelled-then-finished scan ends with
status `completed`. -/
theorem c2_cancelled_status_overwritten_witness :
    ∃ st', cancelScan
        ⟨[("scan_9", ⟨"scan_9", "sess_1", "web_enum", "example.com", "running",
            2/10, 0, 0, none, "", false⟩)], []⟩ "scan_9" = .ok st' ∧
      (lookupScan st'.scans "scan_9").map ScanExecution.status = some "cancelled" ∧
      (lookupScan (finishScanM st' "scan_9" (.ok "payload") 7).scans "scan_9").map
          ScanExecution.status
        = some (match (.ok "payload" : Except String String) with
            | .ok _ => "completed" | .error _ => "failed") ∧
      (lookupScan (finishScanM st' "scan_9" (.ok "payload") 7).scans "scan_9").map
          ScanExecution.status
        ≠ some "cancelled" :=
  c2_cancelled_status_overwritten _ "scan_9" _ (.ok "payload") 7 rfl rfl

/-! ## Claim C5 — validation in StartScan -/

/-- C5 counterexample: a syntactically invalid domain target that the
module's own `Validate` rejects is accepted by `StartScan` without any
error: the scan execution is created with status `pending`, persisted, and
the execution task's first step sets it `running`. -/
theorem c5_counterexample :
    (fun t => if isValidDomain t then none else some "invalid domain format")
        "not a domain" = some "invalid domain format" ∧
    startScan
        [("email_enum", moduleAdapter
          ⟨"email_enum",
           fun t => if isValidDomain t then none else some "invalid domain format",
           fun _ => .ok "result"⟩)]
        ⟨[], []⟩ "scan_1" "sess_1" "email_enum" "not a domain" 0
      = .ok
        (⟨[("scan_1", ⟨"scan_1", "sess_1", "email_enum", "not a domain", "pending",
            0, 0, 0, none, "", false⟩)],
          [.store ⟨"scan_1", "sess_1", "email_enum", "not a domain", "pending",
            0, 0, 0, none, "", false⟩]⟩,
         ⟨"scan_1", "sess_1", "email_enum", "not a domain", "pending",
            0, 0, 0, none, "", false⟩) ∧
    (execStart ⟨"scan_1", "sess_1", "email_enum", "not a domain", "pending",
        0, 0, 0, none, "", false⟩).status = "running" := by
  refine ⟨by decide, ?_, rfl⟩
  rfl

/-- C5 (amended): `StartScan` rejects synchronously only an unregistered
module name; the module's `validate` is never consulted — even when it
would reject the target, the scan execution is created with status
`pending`, stored in the map and the database, and the execution task then
sets it `running`. -/
theorem c5_startScan_skips_validation (registry : List (String × CoreModule))
    (probe : ProbeModule) (st : ScanManagerState)
    (scanID sessionID target : String) (now : Int) (errMsg : String)
    (hreg : lookupModule registry probe.name = some (moduleAdapter probe))
    (_hval : probe.validate target = some errMsg)
    (hfresh : lookupScan st.scans scanID = none) :
    ∃ scan : ScanExecution,
      startScan registry st scanID sessionID probe.name target now
        = .ok ({ scans := st.scans ++ [(scanID, scan)]
                 db := st.db ++ [.store scan] }, scan) ∧
      scan.status = "pending" ∧ scan.target = target ∧
      lookupScan (st.scans ++ [(scanID, scan)]) scanID = some scan ∧
      (execStart scan).status = "running" := by
  refine ⟨⟨scanID, sessionID, probe.name, target, "pending", 0, now, 0, none, "", false⟩,
    ?_, rfl, rfl, lookupScan_append_right _ _ _ hfresh, rfl⟩
  simp [startScan, hreg]

/-- C5 amended witness: concrete registry, invalid-domain target. -/
theorem c5_startScan_skips_validation_witness :
    ∃ scan : ScanExecution,
      startScan
          [("email_enum", moduleAdapter
            ⟨"email_enum",
             fun t => if isValidDomain t then none else some "invalid format",
             fun _ => .ok "result"⟩)]
          ⟨[], []⟩ "scan_2" "sess_2" "email_enum" "999" 3
        = .ok ({ scans := [] ++ [("scan_2", scan)]
                 db := [] ++ [.store scan] }, scan) ∧
      scan.status = "pending" ∧ scan.target = "999" ∧
      lookupScan ([] ++ [("scan_2", scan)]) "scan_2" = some scan ∧
      (execStart scan).status = "running" :=
  c5_startScan_skips_validation _
    ⟨"email_enum",
     fun t => if isValidDomain t then none else some "invalid format",
     fun _ => .ok "result"⟩
    ⟨[], []⟩ "scan_2" "sess_2" "999" 3 "invalid format" rfl (by decide) rfl

/-! ## Claims C3 and C4 — the result merge engine -/

theorem findEmail_insertEmail (m : List (String × EmailInfo)) (r : EmailInfo)
    (k : String) :
    findEmail (insertEmail m r) k
      = if r.email = k then
          match findEmail m k with
          | none => some r
          | some ex => some (mergeEmail ex r)
        else findEmail m k := by
  induction m with
  | nil =>
    by_cases h : r.email = k <;> simp [insertEmail, findEmail, h]
  | cons kv rest ih =>
    obtain ⟨k0, v⟩ := kv
    by_cases h0 : k0 = r.email
    · by_cases hk : k0 = k
      · have hrk : r.email = k := by rw [← h0]; exact hk
        simp [insertEmail, findEmail, h0, hk, hrk]
      · have hrk : ¬ r.email = k := fun hc => hk (h0.trans hc)
        simp [insertEmail, findEmail, h0, hk, hrk]
    · by_cases hk : k0 = k
      · have hrk : ¬ r.email = k := fun hc => h0 (hk.trans hc.symm)
        have h0k : ¬ k = r.email := fun hc => h0 (hk.trans hc)
        simp [insertEmail, findEmail, h0, hk, hrk, h0k]
      · simp only [insertEmail, if_neg h0, findEmail, if_neg hk]
        exact ih

theorem findEmail_foldl (rs : List EmailInfo) :
    ∀ (m : List (String × EmailInfo)) (k : String),
      findEmail (rs.foldl insertEmail m) k = rs.foldl (keyStep k) (findEmail m k) := by
  induction rs with
  | nil => intro m k; rfl
  | cons r rest ih =>
    intro m k
    show findEmail (rest.foldl insertEmail (insertEmail m r)) k
      = rest.foldl (keyStep k) (keyStep k (findEmail m k) r)
    rw [ih]
    congr 1
    rw [findEmail_insertEmail]
    rfl

theorem keyStep_conf (rs : List EmailInfo) :
    ∀ (o : Option EmailInfo) (k : String),
      (rs.foldl (keyStep k) o).map EmailInfo.confidence
        = rs.foldl (confStep k) (o.map EmailInfo.confidence) := by
  induction rs with
  | nil => intro o k; rfl
  | cons r rest ih =>
    intro o k
    show (rest.foldl (keyStep k) (keyStep k o r)).map EmailInfo.confidence
      = rest.foldl (confStep k) (confStep k (o.map EmailInfo.confidence) r)
    rw [ih]
    congr 1
    unfold keyStep confStep
    by_cases h : r.email = k
    · cases o <;> simp [h, mergeEmail]
    · cases o <;> simp [h]

theorem confStep_rightComm (k : String) : RightCommutative (confStep k) := by
  constructor
  intro b a1 a2
  unfold confStep
  by_cases h1 : a1.email = k <;> by_cases h2 : a2.email = k <;>
    cases b <;> simp [h1, h2, max_comm, max_left_comm, max_assoc]

theorem keyStep_sources (rs : List EmailInfo) :
    ∀ (o : Option EmailInfo) (k s : String),
      (∃ r, rs.foldl (keyStep k) o = some r ∧ s ∈ r.sources)
        ↔ (∃ r0, o = some r0 ∧ s ∈ r0.sources)
          ∨ (∃ r ∈ rs, r.email = k ∧ s ∈ r.sources) := by
  induction rs with
  | nil => intro o k s; simp
  | cons r rest ih =>
    intro o k s
    show (∃ r', rest.foldl (keyStep k) (keyStep k o r) = some r' ∧ s ∈ r'.sources) ↔ _
    rw [ih]
    have hstep : (∃ r0, keyStep k o r = some r0 ∧ s ∈ r0.sources)
        ↔ (∃ r0, o = some r0 ∧ s ∈ r0.sources) ∨ (r.email = k ∧ s ∈ r.sources) := by
      unfold keyStep
      by_cases h : r.email = k
      · cases o with
        | none => simp [h]
        | some ex =>
          rw [if_pos h]
          show (∃ r0, some (mergeEmail ex r) = some r0 ∧ s ∈ r0.sources) ↔ _
          constructor
          · rintro ⟨r0, hr0, hs⟩
            obtain rfl : mergeEmail ex r = r0 := Option.some.inj hr0
            rcases List.mem_append.mp hs with hs | hs
            · exact Or.inl ⟨ex, rfl, hs⟩
            · exact Or.inr ⟨h, hs⟩
          · rintro (⟨r0, hr0, hs⟩ | ⟨-, hs⟩)
            · obtain rfl : ex = r0 := Option.some.inj hr0
              exact ⟨mergeEmail ex r, rfl, List.mem_append.mpr (Or.inl hs)⟩
            · exact ⟨mergeEmail ex r, rfl, List.mem_append.mpr (Or.inr hs)⟩
      · simp [h]
    rw [hstep]
    have hmem : (∃ x ∈ r :: rest, x.email = k ∧ s ∈ x.sources)
        ↔ (r.email = k ∧ s ∈ r.sources) ∨ (∃ x ∈ rest, x.email = k ∧ s ∈ x.sources) := by
      constructor
      · rintro ⟨x, hx, hxk, hxs⟩
        rcases List.mem_cons.mp hx with rfl | hx
        · exact Or.inl ⟨hxk, hxs⟩
        · exact Or.inr ⟨x, hx, hxk, hxs⟩
      · rintro (⟨hk, hs'⟩ | ⟨x, hx, hxk, hxs⟩)
        · exact ⟨r, List.mem_cons_self r rest, hk, hs'⟩
        · exact ⟨x, List.mem_cons_of_mem r hx, hxk, hxs⟩
    rw [hmem]
    exact or_assoc

theorem keyStep_none (rs : List EmailInfo) :
    ∀ (o : Option EmailInfo) (k : String),
      (rs.foldl (keyStep k) o = none) ↔ (o = none ∧ ∀ r ∈ rs, r.email ≠ k) := by
  induction rs with
  | nil => intro o k; simp
  | cons r rest ih =>
    intro o k
    show rest.foldl (keyStep k) (keyStep k o r) = none ↔ _
    rw [ih]
    have hstep : keyStep k o r = none ↔ (o = none ∧ r.email ≠ k) := by
      unfold keyStep
      by_cases h : r.email = k
      · cases o <;> simp [h]
      · cases o <;> simp [h]
    rw [hstep, List.forall_mem_cons]
    exact and_assoc

theorem findEmail_mergeAll (rs : List EmailInfo) (k : String) :
    findEmail (mergeAll rs) k = rs.foldl (keyStep k) none := by
  rw [mergeAll, findEmail_foldl]
  rfl

/-- C3 counterexample: merging an incoming record that carries a non-empty
`Name` into an existing record whose `Name` is empty keeps the empty
value — the merged record does not hold the first non-empty value
present, contradicting the claimed field-merge rule. -/
theorem c3_counterexample :
    (mergeEmail
        ⟨"alice@example.com", "", "", "", ["Google Search"], 70, "2025-01-01"⟩
        ⟨"alice@example.com", "Alice Smith", "", "", ["Hunter.io"], 85, "2025-01-02"⟩).name
      = "" ∧
    firstNonEmpty
        (EmailInfo.name ⟨"alice@example.com", "", "", "", ["Google Search"], 70, "2025-01-01"⟩)
        (EmailInfo.name ⟨"alice@example.com", "Alice Smith", "", "", ["Hunter.io"], 85, "2025-01-02"⟩)
      = "Alice Smith" ∧
    "" ≠ "Alice Smith" := by
  refine ⟨rfl, rfl, by decide⟩

/-- C3 (amended): for records with the same identity, the merged record's
confidence is the maximum of the two and its sources are the
concatenation — hence, as a set, the union, never truncated — of the two
source lists; every other field keeps the existing record's value
unconditionally: a later technique never overwrites any field, whether the
existing value is populated or empty (so a non-empty incoming value never
fills an empty existing field). -/
theorem c3_merge_rule (existing incoming : EmailInfo) :
    (mergeEmail existing incoming).confidence
      = max existing.confidence incoming.confidence ∧
    (mergeEmail existing incoming).sources = existing.sources ++ incoming.sources ∧
    (∀ s, s ∈ (mergeEmail existing incoming).sources
      ↔ s ∈ existing.sources ∨ s ∈ incoming.sources) ∧
    (mergeEmail existing incoming).email = existing.email ∧
    (mergeEmail existing incoming).name = existing.name ∧
    (mergeEmail existing incoming).position = existing.position ∧
    (mergeEmail existing incoming).department = existing.department ∧
    (mergeEmail existing incoming).lastSeen = existing.lastSeen :=
  ⟨rfl, rfl, fun _ => List.mem_append, rfl, rfl, rfl, rfl, rfl⟩

/-- C4 counterexample: two candidate records with the same email but
different `Name` fields merge to different final mappings under the two
completion orders, so the final merged mapping is not identical across
permutations. -/
theorem c4_counterexample :
    List.Perm
      [(⟨"alice@example.com", "Alice A", "", "", ["A"], 60, ""⟩ : EmailInfo),
       ⟨"alice@example.com", "Alice B", "", "", ["B"], 85, ""⟩]
      [⟨"alice@example.com", "Alice B", "", "", ["B"], 85, ""⟩,
       ⟨"alice@example.com", "Alice A", "", "", ["A"], 60, ""⟩] ∧
    (findEmail (mergeAll
        [⟨"alice@example.com", "Alice A", "", "", ["A"], 60, ""⟩,
         ⟨"alice@example.com", "Alice B", "", "", ["B"], 85, ""⟩])
      "alice@example.com").map EmailInfo.name = some "Alice A" ∧
    (findEmail (mergeAll
        [⟨"alice@example.com", "Alice B", "", "", ["B"], 85, ""⟩,
         ⟨"alice@example.com", "Alice A", "", "", ["A"], 60, ""⟩])
      "alice@example.com").map EmailInfo.name = some "Alice B" ∧
    mergeAll
        [(⟨"alice@example.com", "Alice A", "", "", ["A"], 60, ""⟩ : EmailInfo),
         ⟨"alice@example.com", "Alice B", "", "", ["B"], 85, ""⟩]
      ≠ mergeAll
        [⟨"alice@example.com", "Alice B", "", "", ["B"], 85, ""⟩,
         ⟨"alice@example.com", "Alice A", "", "", ["A"], 60, ""⟩] := by
  refine ⟨List.Perm.swap _ _ _, by decide, by decide, by decide⟩

/-- C4 (amended): merging the same per-technique findings in any permutation
of completion order yields final mappings with the same identities, the
same merged confidence per identity, and the same source sets per
identity; the remaining fields are not order independent — they keep the
values contributed by the first-completing technique. -/
theorem c4_merge_order_independence (rs rs' : List EmailInfo)
    (hp : rs.Perm rs') (k : String) :
    (findEmail (mergeAll rs) k = none ↔ findEmail (mergeAll rs') k = none) ∧
    (findEmail (mergeAll rs) k).map EmailInfo.confidence
      = (findEmail (mergeAll rs') k).map EmailInfo.confidence ∧
    (∀ s : String,
      (∃ r, findEmail (mergeAll rs) k = some r ∧ s ∈ r.sources)
        ↔ (∃ r, findEmail (mergeAll rs') k = some r ∧ s ∈ r.sources)) := by
  refine ⟨?_, ?_, ?_⟩
  · rw [findEmail_mergeAll, findEmail_mergeAll, keyStep_none, keyStep_none]
    constructor
    · rintro ⟨-, hall⟩
      exact ⟨rfl, fun r hr => hall r (hp.mem_iff.mpr hr)⟩
    · rintro ⟨-, hall⟩
      exact ⟨rfl, fun r hr => hall r (hp.mem_iff.mp hr)⟩
  · rw [findEmail_mergeAll, findEmail_mergeAll, keyStep_conf, keyStep_conf]
    have : RightCommutative (confStep k) := confStep_rightComm k
    exact hp.foldl_eq none
  · intro s
    rw [findEmail_mergeAll, findEmail_mergeAll, keyStep_sources, keyStep_sources]
    constructor
    · rintro (⟨r0, hr0, -⟩ | ⟨r, hr, hk, hs⟩)
      · exact absurd hr0 (by simp)
      · exact Or.inr ⟨r, hp.mem_iff.mp hr, hk, hs⟩
    · rintro (⟨r0, hr0, -⟩ | ⟨r, hr, hk, hs⟩)
      · exact absurd hr0 (by simp)
      · exact Or.inr ⟨r, hp.mem_iff.mpr hr, hk, hs⟩

/-- C4 amended witness: the specification's own example — three techniques
finding the same address with confidences 60/85/70 and source labels
A/B/C — merged in the reverse completion order. -/
theorem c4_merge_order_independence_witness :
    (findEmail (mergeAll
        [(⟨"alice@example.com", "", "", "", ["A"], 60, ""⟩ : EmailInfo),
         ⟨"alice@example.com", "", "", "", ["B"], 85, ""⟩,
         ⟨"alice@example.com", "", "", "", ["C"], 70, ""⟩])
      "alice@example.com" = none
      ↔ findEmail (mergeAll
        [(⟨"alice@example.com", "", "", "", ["C"], 70, ""⟩ : EmailInfo),
         ⟨"alice@example.com", "", "", "", ["B"], 85, ""⟩,
         ⟨"alice@example.com", "", "", "", ["A"], 60, ""⟩])
      "alice@example.com" = none) ∧
    (findEmail (mergeAll
        [(⟨"alice@example.com", "", "", "", ["A"], 60, ""⟩ : EmailInfo),
         ⟨"alice@example.com", "", "", "", ["B"], 85, ""⟩,
         ⟨"alice@example.com", "", "", "", ["C"], 70, ""⟩])
      "alice@example.com").map EmailInfo.confidence
      = (findEmail (mergeAll
        [(⟨"alice@example.com", "", "", "", ["C"], 70, ""⟩ : EmailInfo),
         ⟨"alice@example.com", "", "", "", ["B"], 85, ""⟩,
         ⟨"alice@example.com", "", "", "", ["A"], 60, ""⟩])
      "alice@example.com").map EmailInfo.confidence ∧
    (∀ s : String,
      (∃ r, findEmail (mergeAll
          [(⟨"alice@example.com", "", "", "", ["A"], 60, ""⟩ : EmailInfo),
           ⟨"alice@example.com", "", "", "", ["B"], 85, ""⟩,
           ⟨"alice@example.com", "", "", "", ["C"], 70, ""⟩])
        "alice@example.com" = some r ∧ s ∈ r.sources)
        ↔ (∃ r, findEmail (mergeAll
          [(⟨"alice@example.com", "", "", "", ["C"], 70, ""⟩ : EmailInfo),
           ⟨"alice@example.com", "", "", "", ["B"], 85, ""⟩,
           ⟨"alice@example.com", "", "", "", ["A"], 60, ""⟩])
        "alice@example.com" = some r ∧ s ∈ r.sources)) :=
  c4_merge_order_independence _ _ (by decide) "alice@example.com"

/-! ## Claim C9 — bounded concurrency of the fan-out -/

theorem fanOutReachable_running_le (limit n : Nat) (s : FanOutState)
    (h : FanOutReachable limit n s) : s.running ≤ limit := by
  induction h with
  | init => exact Nat.zero_le _
  | step s1 s2 hreach hstep ih =>
    cases hstep with
    | spawn p w r f => exact ih
    | acquire p w r f hr => exact hr
    | release p w r f => exact Nat.le_of_succ_le ih

/-- C9: in every state reachable by the semaphore-guarded fan-out over `n`
candidates with limit `L > 0`, at most `L` checks are in flight; every
step preserves this bound; and immediately after a check finishes
(releasing its semaphore slot), a waiting candidate (if any) can be
admitted at once. -/
theorem c9_bounded_fanout (limit n : Nat) (_hL : 0 < limit) (s : FanOutState)
    (h : FanOutReachable limit n s) :
    s.running ≤ limit ∧
    (∀ s', FanOutStep limit s s' → s'.running ≤ limit) ∧
    (∀ p w r f, s = ⟨p, w + 1, r + 1, f⟩ →
      FanOutStep limit ⟨p, w + 1, r, f + 1⟩ ⟨p, w, r + 1, f + 1⟩) := by
  refine ⟨fanOutReachable_running_le limit n s h, ?_, ?_⟩
  · intro s' hstep
    exact fanOutReachable_running_le limit n s' (FanOutReachable.step s s' h hstep)
  · intro p w r f hs
    have hrun : r + 1 ≤ limit := by
      have hb := fanOutReachable_running_le limit n s h
      rw [hs] at hb
      exact hb
    exact FanOutStep.acquire p w r (f + 1) (Nat.lt_of_succ_le hrun)

/-- C9 witness: limit 2 over 3 candidates, after one spawn and one
acquire. -/
theorem c9_bounded_fanout_witness : (FanOutState.mk 2 0 1 0).running ≤ 2 :=
  (c9_bounded_fanout 2 3 (by decide) ⟨2, 0, 1, 0⟩
    (.step _ _ (.step _ _ .init (.spawn 2 0 0 0)) (.acquire 2 0 0 0 (by decide)))).1

/-! ## Claim C7 — progress monotonicity -/

theorem applyScanEvt_mono_inv (s : ScanExecution) (e : ScanEvt) (h : scanInv s) :
    s.progress ≤ (applyScanEvt s e).progress ∧ scanInv (applyScanEvt s e) := by
  obtain ⟨h1, h2⟩ := h
  cases e with
  | tick =>
    show s.progress ≤ (progressTick s).progress ∧ scanInv (progressTick s)
    unfold progressTick
    by_cases hc : s.status = "running" ∧ s.progress < 9/10
    · rw [if_pos hc]
      refine ⟨by linarith, by linarith [hc.2], ?_⟩
      intro hp1
      exact absurd hp1 (by simp only; linarith [hc.2])
    · rw [if_neg hc]
      exact ⟨le_refl _, h1, h2⟩
  | cancel =>
    show s.progress ≤ (applyScanEvt s .cancel).progress ∧ scanInv (applyScanEvt s .cancel)
    simp only [applyScanEvt]
    by_cases hc : s.status = "running"
    · rw [if_pos hc]
      refine ⟨le_refl _, h1, ?_⟩
      intro hp1
      rcases h2 hp1 with hcomp | hfail
      · rw [hc] at hcomp
        exact absurd hcomp (by decide)
      · rw [hc] at hfail
        exact absurd hfail (by decide)
    · rw [if_neg hc]
      exact ⟨le_refl _, h1, h2⟩
  | finish res now =>
    show s.progress ≤ (finishScan s res now).progress ∧ scanInv (finishScan s res now)
    have hp : (finishScan s res now).progress = 1 := by cases res <;> rfl
    rw [scanInv, hp]
    refine ⟨h1, le_refl 1, ?_⟩
    intro _
    rw [finishScan_status]
    cases res with
    | ok v => exact Or.inl rfl
    | error msg => exact Or.inr rfl

theorem scanStates_head (s : ScanExecution) (evts : List ScanEvt) :
    ∃ t, scanStates s evts = s :: t := by
  cases evts with
  | nil => exact ⟨[], rfl⟩
  | cons e rest => exact ⟨scanStates (applyScanEvt s e) rest, rfl⟩

theorem scanStates_chain (evts : List ScanEvt) :
    ∀ s : ScanExecution, scanInv s →
      List.Chain' (fun a b => a.progress ≤ b.progress) (scanStates s evts) ∧
      (∀ x ∈ scanStates s evts, scanInv x) := by
  induction evts with
  | nil =>
    intro s h
    refine ⟨List.chain'_singleton _, ?_⟩
    intro x hx
    rw [show x = s by simpa [scanStates] using hx]
    exact h
  | cons e rest ih =>
    intro s h
    obtain ⟨hmono, hinv⟩ := applyScanEvt_mono_inv s e h
    obtain ⟨hc, hall⟩ := ih (applyScanEvt s e) hinv
    obtain ⟨t, ht⟩ := scanStates_head (applyScanEvt s e) rest
    constructor
    · show List.Chain' _ (s :: scanStates (applyScanEvt s e) rest)
      rw [ht]
      rw [ht] at hc
      exact List.chain'_cons.mpr ⟨hmono, hc⟩
    · intro x hx
      rcases List.mem_cons.mp hx with rfl | hx
      · exact h
      · exact hall x hx

theorem webEnumObs_mid (n i : Nat) (_h4 : 4 ≤ i) (hle : i ≤ 3 + n) :
    webEnumObs n i = ("running", 3/10 + 6/10 * ((i : ℚ) - 3) / (n : ℚ)) := by
  simp only [webEnumObs]
  rw [if_neg (by omega : ¬ i = 0), if_neg (by omega : ¬ i = 1),
    if_neg (by omega : ¬ i = 2), if_neg (by omega : ¬ i = 3), if_pos hle]

theorem webEnumObs_ninety (n : Nat) : webEnumObs n (4 + n) = ("running", 9/10) := by
  simp only [webEnumObs]
  rw [if_neg (by omega : ¬ 4 + n = 0), if_neg (by omega : ¬ 4 + n = 1),
    if_neg (by omega : ¬ 4 + n = 2), if_neg (by omega : ¬ 4 + n = 3),
    if_neg (by omega : ¬ 4 + n ≤ 3 + n)]
  simp

theorem webEnumObs_done (n i : Nat) (h : 5 + n ≤ i) :
    webEnumObs n i = ("completed", 1) := by
  simp only [webEnumObs]
  rw [if_neg (by omega : ¬ i = 0), if_neg (by omega : ¬ i = 1),
    if_neg (by omega : ¬ i = 2), if_neg (by omega : ¬ i = 3),
    if_neg (by omega : ¬ i ≤ 3 + n), if_neg (by omega : ¬ i = 4 + n)]

theorem webEnumObs_mid_le (n i : Nat) (h4 : 4 ≤ i) (hle : i ≤ 3 + n) :
    (webEnumObs n i).2 ≤ 9/10 := by
  rw [webEnumObs_mid n i h4 hle]
  have hn0 : (0:ℚ) < n := by exact_mod_cast (by omega : 0 < n)
  have hnum : ((i:ℚ) - 3) ≤ n := by
    have hcast : (i:ℚ) ≤ 3 + n := by exact_mod_cast hle
    linarith
  have hdiv : ((i:ℚ) - 3) / n ≤ 1 := (div_le_one hn0).mpr hnum
  rw [show (6:ℚ)/10 * ((i:ℚ) - 3) / n = 6/10 * (((i:ℚ) - 3) / n) from
    mul_div_assoc _ _ _]
  nlinarith [hdiv]

theorem webEnumObs_step (n i : Nat) (hi : i < 5 + n) :
    (webEnumObs n i).2 ≤ (webEnumObs n (i + 1)).2 := by
  by_cases h0 : i = 0
  · subst h0; norm_num [webEnumObs]
  by_cases h1 : i = 1
  · subst h1; norm_num [webEnumObs]
  by_cases h2 : i = 2
  · subst h2; norm_num [webEnumObs]
  by_cases h3 : i = 3
  · subst h3
    by_cases hn : n = 0
    · subst hn; norm_num [webEnumObs]
    · have hlhs : webEnumObs n 3 = ("running", 3/10) := by norm_num [webEnumObs]
      rw [hlhs, webEnumObs_mid n 4 (by omega) (by omega)]
      have hn0 : (0:ℚ) < n := by exact_mod_cast (by omega : 0 < n)
      have hterm : (0:ℚ) ≤ 6/10 * ((4:ℚ) - 3) / n := by positivity
      show (3:ℚ)/10 ≤ 3/10 + 6/10 * ((4:ℚ) - 3) / n
      linarith
  have h4 : 4 ≤ i := by omega
  by_cases hA : i ≤ 3 + n
  · have hle9 : (webEnumObs n i).2 ≤ 9/10 := webEnumObs_mid_le n i h4 hA
    by_cases hB : i + 1 ≤ 3 + n
    · have hn0 : (0:ℚ) < n := by exact_mod_cast (by omega : 0 < n)
      rw [webEnumObs_mid n i h4 hA, webEnumObs_mid n (i + 1) (by omega) hB]
      simp only
      push_cast
      gcongr
      linarith
    · have hip : i + 1 = 4 + n := by omega
      rw [hip, webEnumObs_ninety n]
      exact hle9
  · have hieq : i = 4 + n := by omega
    rw [hieq, webEnumObs_ninety n, show 4 + n + 1 = 5 + n by omega,
      webEnumObs_done n (5 + n) (le_refl _)]
    norm_num

theorem webEnumObs_one_only (n i : Nat) (h : (webEnumObs n i).2 = 1) :
    (webEnumObs n i).1 = "completed" := by
  by_cases h0 : i = 0
  · subst h0; norm_num [webEnumObs] at h
  by_cases h1 : i = 1
  · subst h1; norm_num [webEnumObs] at h
  by_cases h2 : i = 2
  · subst h2; norm_num [webEnumObs] at h
  by_cases h3 : i = 3
  · subst h3; norm_num [webEnumObs] at h
  have h4 : 4 ≤ i := by omega
  by_cases hA : i ≤ 3 + n
  · have hle9 := webEnumObs_mid_le n i h4 hA
    rw [h] at hle9
    norm_num at hle9
  by_cases hB : i = 4 + n
  · rw [hB, webEnumObs_ninety n] at h
    norm_num at h
  · rw [webEnumObs_done n i (by omega)]

/-- C7: both observable progress signals of a scan are monotone, and reach
1.0 only at a terminal status: (a) the `ScanExecution.Progress` values an
observer polling `GetScan` sees across any interleaving of progress-ticks,
`CancelScan` and the task's finishing tail never decrease, and progress
1.0 implies status `completed` or `failed`; (b) the execution task's first
step satisfies the invariant; (c) the `SetStatus` progress sequence of a
normal `WebEnumModule.Execute` run over `n` paths is non-decreasing, with
the phase updates ordered 0, 0.1, 0.2, 0.3, per-path `0.3 + 0.6·k/n`,
0.9, and 1.0 exactly at status `completed`. -/
theorem c7_progress_monotone :
    (∀ (s0 : ScanExecution) (evts : List ScanEvt), scanInv s0 →
      List.Chain' (fun a b => a.progress ≤ b.progress) (scanStates s0 evts) ∧
      (∀ x ∈ scanStates s0 evts, x.progress = 1 →
        x.status = "completed" ∨ x.status = "failed")) ∧
    (∀ scan : ScanExecution, scanInv (execStart scan)) ∧
    (∀ n : Nat,
      List.Chain' (fun a b => a.2 ≤ b.2) (webEnumProgressTrace n) ∧
      (∀ e ∈ webEnumProgressTrace n, e.2 = 1 → e.1 = "completed")) := by
  refine ⟨?_, ?_, ?_⟩
  · intro s0 evts h
    obtain ⟨hc, hall⟩ := scanStates_chain evts s0 h
    exact ⟨hc, fun x hx hp => (hall x hx).2 hp⟩
  · intro scan
    constructor
    · show (1:ℚ)/10 ≤ 1
      norm_num
    · intro hcontra
      have hten : (execStart scan).progress = 1/10 := rfl
      rw [hten] at hcontra
      norm_num at hcontra
  · intro n
    constructor
    · rw [webEnumProgressTrace, List.chain'_map,
        show 6 + n = (5 + n).succ by omega]
      exact (List.chain'_range_succ _ (5 + n)).mpr
        (fun m hm => webEnumObs_step n m hm)
    · intro e he
      rw [webEnumProgressTrace] at he
      obtain ⟨i, _, rfl⟩ := List.mem_map.mp he
      exact webEnumObs_one_only n i

/-- C7 witness: a concrete scan run — start, one tick, a cancellation, and
the finishing tail — yields a monotone observed progress sequence. -/
theorem c7_progress_monotone_witness :
    List.Chain' (fun a b => a.progress ≤ b.progress)
      (scanStates
        (execStart ⟨"scan_1", "sess_1", "port_scan", "10.0.0.5", "pending",
          0, 0, 0, none, "", false⟩)
        [ScanEvt.tick, ScanEvt.cancel, ScanEvt.finish (.ok "r") 5]) :=
  (c7_progress_monotone.1
    (execStart ⟨"scan_1", "sess_1", "port_scan", "10.0.0.5", "pending",
      0, 0, 0, none, "", false⟩)
    [ScanEvt.tick, ScanEvt.cancel, ScanEvt.finish (.ok "r") 5]
    (c7_progress_monotone.2.1
      ⟨"scan_1", "sess_1", "port_scan", "10.0.0.5", "pending",
        0, 0, 0, none, "", false⟩)).1

end GoReconX
